import Mathlib

/-!
Verification of the global callsite registry in
`src/tokio-trace-core/src/callsite.rs`.

The registry state (`Registry`) holds the two `Vec`s guarded by the global
`Mutex`.  The external collaborators — each callsite's metadata, each
dispatcher's `register_callsite`, and dispatcher liveness — are collected in
an environment record `Env`.  Calls made by the registry on its collaborators
(`try_register`, `register_callsite`, `add_interest`, `remove_interest`,
metadata reads) are recorded, in program order, in an event trace, together
with the structural steps (lock acquisition, the two `Vec` pushes).

References (`&'static Callsite`, `Dispatch`) are modelled by their addresses
(`Nat`); `Meta` and `Interest` are opaque to this file and are modelled as
`Nat` as well.
-/

/-- An opaque metadata descriptor (`Meta`).  The registry never inspects it. -/
abbrev Meta := Nat

/-- An opaque interest value (`subscriber::Interest`).  The registry never
inspects it, it only forwards it to `add_interest`. -/
abbrev Interest := Nat

/-- A `&'static Callsite` trait-object reference, identified by its address.
The callsite's behaviour (its metadata, its interest bookkeeping) lives in
`Env` and in the event trace. -/
abbrev Callsite := Nat

/-- A `&Dispatch` reference, identified by the dispatcher it denotes. -/
abbrev Dispatch := Nat

/-- A `dispatcher::Registrar`: a weak handle remembering which dispatcher it
was derived from. -/
abbrev Registrar := Nat

/-- `Dispatch::registrar()`: derives the weak handle from a dispatcher. -/
def Dispatch.registrar (d : Dispatch) : Registrar := d

/-- The external collaborators of the registry:
`meta c` is the immutable descriptor of callsite `c`
(`Callsite::metadata`), `register_callsite d m` is dispatcher `d`'s answer
to `Subscriber::register_callsite(m)` (`Dispatch::register_callsite`), and
`alive d` says whether dispatcher `d` still exists at the moment an
operation runs. -/
structure Env where
  meta : Callsite → Meta
  register_callsite : Dispatch → Meta → Interest
  alive : Dispatch → Bool

/-- Modelled from the spec: `dispatcher::Registrar::try_register` is
implemented in `dispatcher.rs`, which is not under `src/`.  Per spec §6 the
registrar capability is `try_register(metadata) -> Option<Interest>`, where
absence signals that the originating dispatcher no longer exists; per §8 the
interest a live dispatcher reports for metadata `m` is its
`register_callsite(m)` result. -/
def Env.try_register (env : Env) (r : Registrar) (m : Meta) : Option Interest :=
  if env.alive r then some (env.register_callsite r m) else none

/-- The `Registry` struct behind the global `Mutex`: the insertion-ordered
`Vec` of callsite references and the `Vec` of active registrars. -/
structure Registry where
  callsites : List Callsite
  dispatchers : List Registrar

/-- The initial registry installed by `lazy_static!`: both `Vec`s empty. -/
def REGISTRY_init : Registry := ⟨[], []⟩

/-- One observable step of a registry operation, in program order:
collaborator calls and structural mutations. -/
inductive Event where
  | lockAcquired : Event
  | readMeta : Callsite → Meta → Event
  | tryRegisterCall : Registrar → Meta → Option Interest → Event
  | registerCallsiteCall : Dispatch → Meta → Interest → Event
  | addInterest : Callsite → Interest → Event
  | removeInterest : Callsite → Event
  | pushCallsite : Callsite → Event
  | pushRegistrar : Registrar → Event
deriving DecidableEq, Repr

/-- The `registry.dispatchers.retain(...)` loop inside `register`: front to
back, each registrar is queried with `try_register(meta)`; on `Some` the
interest is delivered to the new callsite via `add_interest` and the
registrar is kept, on `None` it is dropped.  Returns the retained registrars
and the events of the loop. -/
def retainStep (env : Env) (cs : Callsite) (m : Meta) :
    List Registrar → List Registrar × List Event
  | [] => ([], [])
  | r :: rs =>
    let res := retainStep env cs m rs
    match env.try_register r m with
    | some interest =>
        (r :: res.1,
         Event.tryRegisterCall r m (some interest)
           :: Event.addInterest cs interest :: res.2)
    | none => (res.1, Event.tryRegisterCall r m none :: res.2)

/-- Body of `pub fn register(callsite)` once the lock is held: read the
metadata, run the retain loop over the dispatchers, then push the callsite
unconditionally. -/
def registerLocked (env : Env) (cs : Callsite) (reg : Registry) :
    Registry × List Event :=
  let m := env.meta cs
  let res := retainStep env cs m reg.dispatchers
  (⟨reg.callsites ++ [cs], res.1⟩,
   Event.lockAcquired :: Event.readMeta cs m
     :: res.2 ++ [Event.pushCallsite cs])

/-- The `for callsite in &registry.callsites` loop inside
`register_dispatch`: each known callsite's metadata is passed to
`dispatch.register_callsite` and the result delivered via `add_interest`. -/
def dispatchStep (env : Env) (d : Dispatch) : List Callsite → List Event
  | [] => []
  | cs :: rest =>
    let interest := env.register_callsite d (env.meta cs)
    Event.registerCallsiteCall d (env.meta cs) interest
      :: Event.addInterest cs interest :: dispatchStep env d rest

/-- Body of `register_dispatch(dispatch)` once the lock is held: push the
derived registrar, then run the query loop over the known callsites. -/
def registerDispatchLocked (env : Env) (d : Dispatch) (reg : Registry) :
    Registry × List Event :=
  (⟨reg.callsites, reg.dispatchers ++ [d.registrar]⟩,
   Event.lockAcquired :: Event.pushRegistrar d.registrar
     :: dispatchStep env d reg.callsites)

/-- Body of `reset_registry()` once the lock is held: clear both `Vec`s. -/
def resetRegistryLocked (reg : Registry) : Registry × List Event :=
  (⟨[], []⟩, [Event.lockAcquired])

/-- State of the global `Mutex`: `poisoned` when a prior holder panicked. -/
inductive LockState where
  | healthy : LockState
  | poisoned : LockState

/-- `pub fn register`: `REGISTRY.lock().unwrap()` panics (`none`) on a
poisoned lock, before touching any state; otherwise the locked body runs. -/
def register (env : Env) (lock : LockState) (cs : Callsite) (reg : Registry) :
    Option (Registry × List Event) :=
  match lock with
  | .poisoned => none
  | .healthy => some (registerLocked env cs reg)

/-- `register_dispatch`: same lock discipline as `register`. -/
def register_dispatch (env : Env) (lock : LockState) (d : Dispatch)
    (reg : Registry) : Option (Registry × List Event) :=
  match lock with
  | .poisoned => none
  | .healthy => some (registerDispatchLocked env d reg)

/-- `pub fn reset_registry`: same lock discipline as `register`. -/
def reset_registry (lock : LockState) (reg : Registry) :
    Option (Registry × List Event) :=
  match lock with
  | .poisoned => none
  | .healthy => some (resetRegistryLocked reg)

/-- `Identifier(&'static Callsite)`: wraps one callsite reference. -/
structure Identifier where
  ptr : Callsite
deriving DecidableEq, Repr

/-- `Identifier::from_callsite`. -/
def Identifier.from_callsite (cs : Callsite) : Identifier := ⟨cs⟩

/-- `PartialEq for Identifier`: `ptr::eq(self.0, other.0)` — address
equality, the metadata behind the pointer is never read. -/
def Identifier.eq (a b : Identifier) : Bool := a.ptr == b.ptr

/-- `Hash for Identifier`: `(self.0 as *const Callsite).hash(state)` — the
hasher `h` is fed only the address, never the metadata. -/
def Identifier.hashWith (h : Nat → Nat) (a : Identifier) : Nat := h a.ptr

/-- Recognises an `add_interest` delivery aimed at callsite `cs`. -/
def isDeliveryTo (cs : Callsite) : Event → Bool
  | Event.addInterest c _ => c == cs
  | _ => false

/-- Recognises an `add_interest` delivery aimed at a callsite other than
`cs`. -/
def isDeliveryNotTo (cs : Callsite) : Event → Bool
  | Event.addInterest c _ => c != cs
  | _ => false

/-- Recognises a `register_callsite` query to dispatcher `d` with metadata
`m`. -/
def isQueryFor (d : Dispatch) (m : Meta) : Event → Bool
  | Event.registerCallsiteCall d2 m2 _ => d2 == d && m2 == m
  | _ => false

/-- Recognises a `remove_interest` call. -/
def isRemoval : Event → Bool
  | Event.removeInterest _ => true
  | _ => false

/-- The `add_interest` deliveries aimed at callsite `cs` within a trace. -/
def deliveriesTo (cs : Callsite) (evs : List Event) : List Event :=
  evs.filter (isDeliveryTo cs)

/-- The `add_interest` deliveries aimed at a callsite other than `cs`. -/
def deliveriesNotTo (cs : Callsite) (evs : List Event) : List Event :=
  evs.filter (isDeliveryNotTo cs)

/-- The `register_callsite` queries issued to dispatcher `d` with metadata
`m` within a trace. -/
def queriesFor (d : Dispatch) (m : Meta) (evs : List Event) : List Event :=
  evs.filter (isQueryFor d m)

/-- The `remove_interest` calls within a trace. -/
def removals (evs : List Event) : List Event :=
  evs.filter isRemoval

/-! ## Characterisation lemmas for the two loops -/

/-- A registrar's `try_register` succeeds exactly when its dispatcher is
still alive. -/
theorem try_register_isSome (env : Env) (r : Registrar) (m : Meta) :
    (env.try_register r m).isSome = env.alive r := by
  unfold Env.try_register
  cases env.alive r <;> simp

/-- Closed form of the retain loop: it keeps exactly the registrars whose
dispatcher is alive, and per registrar emits the query event followed, when
alive, by the delivery of that dispatcher's interest to the new callsite. -/
theorem retainStep_eq (env : Env) (cs : Callsite) (m : Meta)
    (ds : List Registrar) :
    retainStep env cs m ds =
      (ds.filter fun r => env.alive r,
       ds.flatMap fun r =>
         if env.alive r then
           [Event.tryRegisterCall r m (some (env.register_callsite r m)),
            Event.addInterest cs (env.register_callsite r m)]
         else [Event.tryRegisterCall r m none]) := by
  induction ds with
  | nil => rfl
  | cons r rs ih =>
      cases h : env.alive r
      · simp [retainStep, Env.try_register, h, ih]
      · simp [retainStep, Env.try_register, h, ih]

/-- Closed form of the dispatch loop: per known callsite, one
`register_callsite` query on its metadata followed by one delivery of the
result. -/
theorem dispatchStep_eq (env : Env) (d : Dispatch) (l : List Callsite) :
    dispatchStep env d l =
      l.flatMap fun cs =>
        [Event.registerCallsiteCall d (env.meta cs)
           (env.register_callsite d (env.meta cs)),
         Event.addInterest cs (env.register_callsite d (env.meta cs))] := by
  induction l with
  | nil => rfl
  | cons c rest ih => simp [dispatchStep, ih]

/-- The retain loop delivers to the new callsite exactly one interest per
live registrar, in registry order. -/
theorem deliveriesTo_retainStep (env : Env) (cs : Callsite) (m : Meta)
    (ds : List Registrar) :
    deliveriesTo cs (retainStep env cs m ds).2 =
      (ds.filter fun r => env.alive r).map fun r =>
        Event.addInterest cs (env.register_callsite r m) := by
  induction ds with
  | nil => rfl
  | cons r rs ih =>
      cases h : env.alive r
      · simpa [retainStep, Env.try_register, h, deliveriesTo, isDeliveryTo]
          using ih
      · simpa [retainStep, Env.try_register, h, deliveriesTo, isDeliveryTo]
          using ih

/-- The dispatch loop delivers to callsite `cs` once per occurrence of `cs`
in the known-callsite list, always the same queried interest. -/
theorem deliveriesTo_dispatchStep (env : Env) (d : Dispatch) (cs : Callsite)
    (l : List Callsite) :
    deliveriesTo cs (dispatchStep env d l) =
      List.replicate (l.count cs)
        (Event.addInterest cs (env.register_callsite d (env.meta cs))) := by
  induction l with
  | nil => rfl
  | cons c rest ih =>
      by_cases h : c = cs
      · subst h
        simp [dispatchStep, deliveriesTo, isDeliveryTo,
          List.count_cons, List.replicate_succ]
        exact ih
      · simp [dispatchStep, deliveriesTo, isDeliveryTo,
          List.count_cons, h, Ne.symm h]
        exact ih

/-- The retain loop never calls `remove_interest`. -/
theorem removals_retainStep (env : Env) (cs : Callsite) (m : Meta)
    (ds : List Registrar) :
    removals (retainStep env cs m ds).2 = [] := by
  induction ds with
  | nil => rfl
  | cons r rs ih =>
      cases h : env.alive r
      · simpa [retainStep, Env.try_register, h, removals, isRemoval] using ih
      · simpa [retainStep, Env.try_register, h, removals, isRemoval] using ih

/-- The dispatch loop never calls `remove_interest`. -/
theorem removals_dispatchStep (env : Env) (d : Dispatch)
    (l : List Callsite) :
    removals (dispatchStep env d l) = [] := by
  induction l with
  | nil => rfl
  | cons c rest ih => simpa [dispatchStep, removals, isRemoval] using ih

/-- The retain loop only ever delivers to the callsite being registered. -/
theorem deliveriesNotTo_retainStep (env : Env) (cs : Callsite) (m : Meta)
    (ds : List Registrar) :
    deliveriesNotTo cs (retainStep env cs m ds).2 = [] := by
  induction ds with
  | nil => rfl
  | cons r rs ih =>
      cases h : env.alive r
      · simpa [retainStep, Env.try_register, h, deliveriesNotTo,
          isDeliveryNotTo] using ih
      · simpa [retainStep, Env.try_register, h, deliveriesNotTo,
          isDeliveryNotTo] using ih

/-! ## Concrete environments used by the witnesses -/

/-- A concrete environment: every dispatcher is alive, metadata and interest
values are distinguishable. -/
def envW : Env := ⟨fun c => c + 10, fun d m => d * 100 + m, fun _ => true⟩

/-- A concrete environment: every dispatcher is gone and all callsites have
byte-identical metadata. -/
def envDead : Env := ⟨fun _ => 0, fun d m => d + m, fun _ => false⟩

/-! ## The claims -/

/-- C1 (order-independence): for a callsite `cs` and a live dispatcher `d`,
whichever of the two is registered second, `cs` receives an `add_interest`
delivery carrying exactly `d.register_callsite(cs.metadata())`. -/
theorem order_independence (env : Env) (cs : Callsite) (d : Dispatch)
    (reg : Registry) (hd : env.alive d = true) :
    Event.addInterest cs (env.register_callsite d (env.meta cs))
        ∈ (registerDispatchLocked env d (registerLocked env cs reg).1).2
      ∧ Event.addInterest cs (env.register_callsite d (env.meta cs))
        ∈ (registerLocked env cs (registerDispatchLocked env d reg).1).2 := by
  constructor
  · simp only [registerDispatchLocked, registerLocked, dispatchStep_eq,
      List.mem_cons]
    refine Or.inr (Or.inr (List.mem_flatMap.mpr ⟨cs, by simp, by simp⟩))
  · have hmem : Event.addInterest cs (env.register_callsite d (env.meta cs))
        ∈ (retainStep env cs (env.meta cs)
            (reg.dispatchers ++ [Dispatch.registrar d])).2 := by
      rw [retainStep_eq]
      exact List.mem_flatMap.mpr
        ⟨Dispatch.registrar d, by simp, by simp [Dispatch.registrar, hd]⟩
    exact List.mem_cons_of_mem _ (List.mem_cons_of_mem _
      (List.mem_append_left _ hmem))

/-- Witness for C1 at a concrete callsite, dispatcher and environment. -/
theorem order_independence_witness :
    Event.addInterest 5 (envW.register_callsite 3 (envW.meta 5))
        ∈ (registerDispatchLocked envW 3 (registerLocked envW 5 REGISTRY_init).1).2
      ∧ Event.addInterest 5 (envW.register_callsite 3 (envW.meta 5))
        ∈ (registerLocked envW 5 (registerDispatchLocked envW 3 REGISTRY_init).1).2 :=
  order_independence envW 5 3 REGISTRY_init rfl

/-- C2 (steps of `register`): with a healthy lock, `register` acquires the
lock, reads the callsite's metadata, then per registrar in order issues the
`try_register` query — dropping the registrar on expiration, otherwise
delivering the returned interest to the callsite — and only after the whole
loop appends the callsite, unconditionally. -/
theorem register_steps (env : Env) (cs : Callsite) (reg : Registry) :
    register env LockState.healthy cs reg =
      some (⟨reg.callsites ++ [cs], reg.dispatchers.filter fun r => env.alive r⟩,
        Event.lockAcquired :: Event.readMeta cs (env.meta cs)
          :: (reg.dispatchers.flatMap fun r =>
                if env.alive r then
                  [Event.tryRegisterCall r (env.meta cs)
                     (some (env.register_callsite r (env.meta cs))),
                   Event.addInterest cs (env.register_callsite r (env.meta cs))]
                else [Event.tryRegisterCall r (env.meta cs) none])
            ++ [Event.pushCallsite cs]) := by
  simp [register, registerLocked, retainStep_eq]

/-- C3 (steps of `register_dispatch`): the registrar derived from the
dispatcher is appended to the active set, then every known callsite is
queried and receives one delivery; with exactly one known callsite `c1`,
exactly one `register_callsite` query on `c1`'s metadata and exactly one
`add_interest` delivery to `c1` happen. -/
theorem register_dispatch_steps (env : Env) (d : Dispatch) (c1 : Callsite)
    (reg reg2 : Registry) (h : reg.callsites = [c1]) :
    (registerDispatchLocked env d reg2 =
       (⟨reg2.callsites, reg2.dispatchers ++ [Dispatch.registrar d]⟩,
        Event.lockAcquired :: Event.pushRegistrar (Dispatch.registrar d)
          :: reg2.callsites.flatMap fun cs =>
               [Event.registerCallsiteCall d (env.meta cs)
                  (env.register_callsite d (env.meta cs)),
                Event.addInterest cs (env.register_callsite d (env.meta cs))]))
    ∧ (queriesFor d (env.meta c1) (registerDispatchLocked env d reg).2).length = 1
    ∧ (deliveriesTo c1 (registerDispatchLocked env d reg).2).length = 1 := by
  refine ⟨by simp [registerDispatchLocked, dispatchStep_eq], ?_, ?_⟩
  · simp [registerDispatchLocked, h, dispatchStep, queriesFor, isQueryFor]
  · simp [registerDispatchLocked, h, dispatchStep, deliveriesTo, isDeliveryTo]

/-- Witness for C3: one known callsite `7`, new dispatcher `3`, and the
general trace shape checked on a second concrete registry. -/
theorem register_dispatch_steps_witness :
    (registerDispatchLocked envW 3 (Registry.mk [1, 2] [9]) =
       (⟨(Registry.mk [1, 2] [9]).callsites,
         (Registry.mk [1, 2] [9]).dispatchers ++ [Dispatch.registrar 3]⟩,
        Event.lockAcquired :: Event.pushRegistrar (Dispatch.registrar 3)
          :: (Registry.mk [1, 2] [9]).callsites.flatMap fun cs =>
               [Event.registerCallsiteCall 3 (envW.meta cs)
                  (envW.register_callsite 3 (envW.meta cs)),
                Event.addInterest cs (envW.register_callsite 3 (envW.meta cs))]))
    ∧ (queriesFor 3 (envW.meta 7)
        (registerDispatchLocked envW 3 (Registry.mk [7] [])).2).length = 1
    ∧ (deliveriesTo 7
        (registerDispatchLocked envW 3 (Registry.mk [7] [])).2).length = 1 :=
  register_dispatch_steps envW 3 7 (Registry.mk [7] []) (Registry.mk [1, 2] [9]) rfl

/-- C4 (identifier identity): `Identifier` equality is address equality —
distinct callsites give unequal identifiers even under byte-identical
metadata, an identifier equals itself — and hashing feeds the hasher only
the address; neither operation ever reads metadata. -/
theorem identifier_identity (env : Env) (a b : Callsite) (i j : Identifier)
    (h : Nat → Nat) (hmeta : env.meta a = env.meta b) (hab : a ≠ b) :
    Identifier.eq (Identifier.from_callsite a) (Identifier.from_callsite b) = false
    ∧ Identifier.eq (Identifier.from_callsite a) (Identifier.from_callsite a) = true
    ∧ Identifier.eq i j = (i.ptr == j.ptr)
    ∧ Identifier.hashWith h i = h i.ptr := by
  refine ⟨?_, by simp [Identifier.eq, Identifier.from_callsite], rfl, rfl⟩
  simp [Identifier.eq, Identifier.from_callsite]
  exact hab

/-- Witness for C4 at two concrete callsites with identical metadata. -/
theorem identifier_identity_witness :
    Identifier.eq (Identifier.from_callsite 0) (Identifier.from_callsite 1) = false
    ∧ Identifier.eq (Identifier.from_callsite 0) (Identifier.from_callsite 0) = true
    ∧ Identifier.eq ⟨4⟩ ⟨4⟩ = ((4 : Nat) == 4)
    ∧ Identifier.hashWith Nat.succ ⟨4⟩ = Nat.succ 4 :=
  identifier_identity envDead 0 1 ⟨4⟩ ⟨4⟩ Nat.succ rfl (by decide)

/-- C5 (lazy eviction): an expired registrar in the active set is gone from
the active set after the next `register`, and the deliveries of that
`register` are exactly one interest per live registrar — none from the
expired one. -/
theorem lazy_eviction (env : Env) (cs : Callsite) (r : Registrar)
    (reg : Registry) (hr : r ∈ reg.dispatchers) (hdead : env.alive r = false) :
    (registerLocked env cs reg).1.dispatchers.count r = 0
    ∧ deliveriesTo cs (registerLocked env cs reg).2 =
        (reg.dispatchers.filter fun r2 => env.alive r2).map fun r2 =>
          Event.addInterest cs (env.register_callsite r2 (env.meta cs)) := by
  constructor
  · simp only [registerLocked, retainStep_eq]
    rw [List.count_eq_zero]
    intro hmem
    rw [List.mem_filter] at hmem
    rw [hdead] at hmem
    exact absurd hmem.2 (by simp)
  · simp [registerLocked, deliveriesTo, isDeliveryTo]
    have := deliveriesTo_retainStep env cs (env.meta cs) reg.dispatchers
    simpa [deliveriesTo] using this

/-- Witness for C5: dispatcher `9` is in the active set and gone. -/
theorem lazy_eviction_witness :
    (registerLocked envDead 5 (Registry.mk [] [9])).1.dispatchers.count 9 = 0
    ∧ deliveriesTo 5 (registerLocked envDead 5 (Registry.mk [] [9])).2 =
        ((Registry.mk [] [9]).dispatchers.filter fun r2 => envDead.alive r2).map
          fun r2 => Event.addInterest 5 (envDead.register_callsite r2 (envDead.meta 5)) :=
  lazy_eviction envDead 5 9 (Registry.mk [] [9]) (by decide) rfl

/-- C6 (no implicit dedup): registering the same callsite twice appends it
twice; its occurrence count in the callsite collection grows by two. -/
theorem register_no_dedup (env env2 : Env) (cs : Callsite) (reg : Registry) :
    (registerLocked env2 cs (registerLocked env cs reg).1).1.callsites =
        reg.callsites ++ [cs, cs]
    ∧ (registerLocked env2 cs (registerLocked env cs reg).1).1.callsites.count cs =
        reg.callsites.count cs + 2 := by
  constructor
  · simp [registerLocked]
  · simp [registerLocked, List.count_append]

/-- C7 (reset isolation): after `reset_registry` both collections are empty
and each next registration behaves exactly as on the freshly initialised
registry. -/
theorem reset_isolation (reg : Registry) (env : Env) (cs : Callsite)
    (d : Dispatch) :
    (resetRegistryLocked reg).1.callsites = []
    ∧ (resetRegistryLocked reg).1.dispatchers = []
    ∧ registerLocked env cs (resetRegistryLocked reg).1 =
        registerLocked env cs REGISTRY_init
    ∧ registerDispatchLocked env d (resetRegistryLocked reg).1 =
        registerDispatchLocked env d REGISTRY_init :=
  ⟨rfl, rfl, rfl, rfl⟩

/-- C8 (poisoned lock): every entry point panics on `lock().unwrap()` when
the lock is poisoned, producing no state change and no collaborator call. -/
theorem poisoned_lock_aborts (env : Env) (cs : Callsite) (d : Dispatch)
    (reg : Registry) :
    register env LockState.poisoned cs reg = none
    ∧ register_dispatch env LockState.poisoned d reg = none
    ∧ reset_registry LockState.poisoned reg = none :=
  ⟨rfl, rfl, rfl⟩

/-- C9 (no revocation, frame): neither registration path ever calls
`remove_interest`, and `register` delivers interest only to the callsite
being registered — the state of every other callsite is untouched. -/
theorem no_interest_revocation (env : Env) (cs : Callsite) (d : Dispatch)
    (reg : Registry) :
    removals (registerLocked env cs reg).2 = []
    ∧ removals (registerDispatchLocked env d reg).2 = []
    ∧ deliveriesNotTo cs (registerLocked env cs reg).2 = [] := by
  refine ⟨?_, ?_, ?_⟩
  · simp [registerLocked, removals, isRemoval]
    have := removals_retainStep env cs (env.meta cs) reg.dispatchers
    simpa [removals] using this
  · simp [registerDispatchLocked, removals, isRemoval]
    have := removals_dispatchStep env d reg.callsites
    simpa [removals] using this
  · simp [registerLocked, deliveriesNotTo, isDeliveryNotTo]
    have := deliveriesNotTo_retainStep env cs (env.meta cs) reg.dispatchers
    simpa [deliveriesNotTo] using this

/-- C10 (duplicate amplification): `register_dispatch` delivers to a
callsite once per occurrence of that callsite in the callsite collection,
each delivery carrying the new dispatcher's queried interest. -/
theorem duplicate_delivery_amplification (env : Env) (d : Dispatch)
    (cs : Callsite) (reg : Registry) :
    deliveriesTo cs (registerDispatchLocked env d reg).2 =
      List.replicate (reg.callsites.count cs)
        (Event.addInterest cs (env.register_callsite d (env.meta cs))) := by
  simp [registerDispatchLocked, deliveriesTo, isDeliveryTo]
  have := deliveriesTo_dispatchStep env d cs reg.callsites
  simpa [deliveriesTo] using this
